import Mathlib

/-!
Verification of the noteme recording-processing pipeline.

This file gives a shallow embedding, in Lean 4, of the core logic of the
repository: the in-memory recording store and its lifecycle state machine
(`internal/storage/audio.go`, the `processRecording` handler), the analysis
cache (`internal/storage/analysis.go`, the `analyzeRecording` handler), the
STT provider variants (`internal/stt`), the transcript cleaner
(`internal/ai/clean_transcript.go`), context detection
(`internal/ai/context.go`) and the durable-store merge update
(`postgresRepository.UpdateResult` and the sync helpers).

External effects (HTTP calls to the STT/LLM backends, the filesystem, ffmpeg)
are modelled by explicit environment records whose outcomes parametrise the
embedded functions; the embedded control flow mirrors the Go source branch by
branch.
-/

namespace Noteme

/-! ## String helpers mirroring the Go standard library -/

/-- Models Go's `unicode.ToLower` (as used by `strings.ToLower`) restricted to
the character repertoire reachable in this repository: ASCII, the Latin-1
supplement, Latin Extended-A, the Vietnamese horn letters and Latin Extended
Additional (all precomposed Vietnamese letters).  Characters outside these
ranges are returned unchanged. -/
def goCharToLower (c : Char) : Char :=
  let n := c.toNat
  if 65 ≤ n ∧ n ≤ 90 then Char.ofNat (n + 32)
  else if 192 ≤ n ∧ n ≤ 222 ∧ n ≠ 215 then Char.ofNat (n + 32)
  else if 0x100 ≤ n ∧ n ≤ 0x137 ∧ n % 2 = 0 then Char.ofNat (n + 1)
  else if 0x139 ≤ n ∧ n ≤ 0x148 ∧ n % 2 = 1 then Char.ofNat (n + 1)
  else if 0x14A ≤ n ∧ n ≤ 0x177 ∧ n % 2 = 0 then Char.ofNat (n + 1)
  else if n = 0x178 then Char.ofNat 0xFF
  else if 0x179 ≤ n ∧ n ≤ 0x17E ∧ n % 2 = 1 then Char.ofNat (n + 1)
  else if n = 0x1A0 ∨ n = 0x1AF then Char.ofNat (n + 1)
  else if 0x1E00 ≤ n ∧ n ≤ 0x1EFF ∧ n % 2 = 0 then Char.ofNat (n + 1)
  else c

/-- Models `strings.ToLower`. -/
def goToLower (s : String) : String :=
  ⟨s.data.map goCharToLower⟩

/-- Whether `needle` is a leading segment of `hay` (character-wise). -/
def charsLeads : List Char → List Char → Bool
  | [], _ => true
  | _ :: _, [] => false
  | a :: as, b :: bs => a == b && charsLeads as bs

/-- Whether `needle` occurs contiguously inside `hay`. -/
def charsContains (needle : List Char) : List Char → Bool
  | [] => charsLeads needle []
  | c :: t => charsLeads needle (c :: t) || charsContains needle t

/-- Models `strings.Contains s sub` (byte-level matching of valid UTF-8
agrees with character-level matching). -/
def strContains (s sub : String) : Bool :=
  charsContains sub.data s.data

/-- Models `unicode.IsSpace` on the white-space characters Go recognises in
the Latin-1 range. -/
def goIsSpace (c : Char) : Bool :=
  let n := c.toNat
  n = 32 || (9 ≤ n && n ≤ 13) || n = 0x85 || n = 0xA0

/-- Models `strings.TrimSpace`. -/
def trimSpace (s : String) : String :=
  ⟨((s.data.dropWhile goIsSpace).reverse.dropWhile goIsSpace).reverse⟩

/-- Helper for `pathExt`: walks the reversed character list accumulating the
would-be extension until the first dot (or a path separator / the start). -/
def pathExtRev (acc : List Char) : List Char → Option (List Char)
  | [] => none
  | c :: t =>
    if c = '/' then none
    else if c = '.' then some (c :: acc)
    else pathExtRev (c :: acc) t

/-- Models `filepath.Ext`: the suffix beginning at the final dot in the last
path element, or the empty string when there is none. -/
def pathExt (p : String) : String :=
  match pathExtRev [] p.data.reverse with
  | none => ""
  | some l => ⟨l⟩

/-! ## Context detection (`internal/ai/context.go`) -/

/-- The meeting-indicative keyword set of `DetectContext`. -/
def meetingKeywords : List String :=
  ["họp", "dự án", "deadline", "gửi", "báo cáo",
   "khách hàng", "đồng nghiệp", "team", "nhóm",
   "thống nhất", "chốt", "phê duyệt", "approve",
   "task", "công việc", "nhiệm vụ"]

/-- The lecture-indicative keyword set of `DetectContext`. -/
def lectureKeywords : List String :=
  ["bài giảng", "thầy", "cô", "chương", "ví dụ",
   "kiến thức", "học", "giải thích", "định nghĩa",
   "khái niệm", "nguyên lý", "phương pháp"]

/-- The counting loop of `DetectContext`: how many keywords of `kws` occur in
`t`. -/
def countContained (t : String) (kws : List String) : Nat :=
  kws.foldl (fun acc kw => if strContains t kw then acc + 1 else acc) 0

/-- Models `DetectContext`: lowercase the transcript, count meeting and
lecture keyword matches, and classify. -/
def detectContext (transcript : String) : String :=
  let t := goToLower transcript
  let meetingCount := countContained t meetingKeywords
  let lectureCount := countContained t lectureKeywords
  if meetingCount > 0 ∧ meetingCount ≥ lectureCount then "meeting"
  else if lectureCount > 0 then "lecture"
  else "thinking"

/-! ## STT provider models (`internal/stt`)

The two `Transcribe` implementations are embedded as pure functions over an
environment record that fixes the outcome of each external effect (file
reads, the ffmpeg invocation, the single HTTP round-trip).  Besides the
`Result`-or-error value each function reports how many HTTP requests it sent
to the upstream backend. -/

/-- Models `stt.Result`. -/
structure SttResult where
  transcript : String
  confidence : Rat
  provider : String
  rawResponse : String
deriving DecidableEq

/-- One hypothesis of the FPT response (`utterance` + `confidence`). -/
structure FptHyp where
  utterance : String
  confidence : Rat
deriving DecidableEq

/-- The parsed body of an FPT STT response. -/
structure FptBody where
  hypotheses : List FptHyp
  errorCode : Int
  message : String
deriving DecidableEq

/-- Outcome of the single HTTP round-trip of a provider: either a transport
error, or a status code together with the raw body and (when the body is
valid JSON for the expected schema) its parsed form. -/
inductive HttpOutcome (β : Type) where
  | netError (msg : String)
  | resp (status : Nat) (raw : String) (body : Option β)

/-- Environment for `FPTProvider.Transcribe`: the size (in bytes) of each
readable file, and the HTTP outcome were a request sent. -/
structure FptEnv where
  fileSize : String → Option Nat
  http : HttpOutcome FptBody

/-- Models `FPTProvider.Transcribe`.  Returns the result-or-error together
with the number of HTTP requests issued to the FPT backend. -/
def fptTranscribe (env : FptEnv) (audioPath : String) :
    Except String SttResult × Nat :=
  match env.fileSize audioPath with
  | none => (.error "failed to read audio file", 0)
  | some n =>
    if n < 1000 then
      (.error ("audio file too small (" ++ toString n ++
        " bytes), may be empty or corrupted"), 0)
    else
      match env.http with
      | .netError e => (.error ("failed to send request to FPT.AI: " ++ e), 1)
      | .resp status raw body =>
        if status ≠ 200 then
          (.error ("FPT.AI API returned status " ++ toString status ++ ": " ++ raw), 1)
        else
          match body with
          | none => (.error "failed to parse FPT.AI response", 1)
          | some b =>
            if b.errorCode ≠ 0 then
              (.error ("FPT.AI API error " ++ toString b.errorCode ++ ": " ++ b.message), 1)
            else
              match b.hypotheses with
              | [] => (.error "no speech detected in audio", 1)
              | h :: _ =>
                let transcript := trimSpace h.utterance
                if transcript = "" then (.error "empty transcript returned", 1)
                else
                  (.ok { transcript := transcript, confidence := h.confidence,
                         provider := "fpt", rawResponse := raw }, 1)

/-- One transcript alternative of the Google response. -/
structure GoogleAlt where
  transcript : String
  confidence : Rat
deriving DecidableEq

/-- One recognition result of the Google response. -/
structure GoogleResult where
  alternatives : List GoogleAlt
deriving DecidableEq

/-- The error object of the Google response. -/
structure GoogleErr where
  code : Int
  message : String
  status : String
deriving DecidableEq

/-- The parsed body of a Google STT response. -/
structure GoogleBody where
  results : List GoogleResult
  error : Option GoogleErr
deriving DecidableEq

/-- Outcome of the ffmpeg invocation in `convertM4AToWAV`: either the command
fails, or it writes a converted WAV file of the given byte size. -/
inductive FfmpegOutcome where
  | cmdFail (stderr : String)
  | output (sizeBytes : Nat)
deriving DecidableEq

/-- Environment for `GoogleProvider.Transcribe`. -/
structure GoogleEnv where
  fileSize : String → Option Nat
  ffmpeg : FfmpegOutcome
  http : HttpOutcome GoogleBody

/-- Models `convertM4AToWAV`: on success it yields the path and size of the
temporary converted file; a converted file below 1000 bytes is removed again
and reported as an error.  (When the ffmpeg command itself fails no output
file is produced.) -/
def convertM4AToWAV (o : FfmpegOutcome) (inputPath : String) :
    Except String (String × Nat) :=
  match o with
  | .cmdFail stderrText => .error ("failed to convert M4A to WAV: " ++ stderrText)
  | .output n =>
    if n < 1000 then
      .error ("converted file too small (" ++ toString n ++
        " bytes), conversion may have failed")
    else .ok (inputPath ++ ".converted.wav", n)

/-- The part of `GoogleProvider.Transcribe` that runs after the audio bytes
are in hand: size validation, the HTTP call and response mapping.  Returns
the result-or-error and the number of HTTP requests issued. -/
def googleAfterRead (env : GoogleEnv) (nBytes : Nat) :
    Except String SttResult × Nat :=
  if nBytes < 1000 then
    (.error ("audio file too small (" ++ toString nBytes ++
      " bytes), may be empty or corrupted"), 0)
  else
    match env.http with
    | .netError e =>
      (.error ("failed to send request to Google Speech-to-Text: " ++ e), 1)
    | .resp status raw body =>
      if status ≠ 200 then
        (.error ("Google Speech-to-Text API returned status " ++
          toString status ++ ": " ++ raw), 1)
      else
        match body with
        | none => (.error "failed to parse Google Speech-to-Text response", 1)
        | some b =>
          match b.error with
          | some er =>
            (.error ("Google Speech-to-Text API error: " ++ er.message), 1)
          | none =>
            match b.results with
            | [] => (.error "no speech detected in audio", 1)
            | r :: _ =>
              match r.alternatives with
              | [] => (.error "no transcript alternatives returned", 1)
              | a :: _ =>
                let transcript := trimSpace a.transcript
                if transcript = "" then (.error "empty transcript returned", 1)
                else
                  (.ok { transcript := transcript, confidence := a.confidence,
                         provider := "google", rawResponse := raw }, 1)

/-- The observable outcome of the body of `GoogleProvider.Transcribe`, before
the deferred cleanup runs: the result, the HTTP request count, whether a
temporary converted file was registered for cleanup, and whether such a file
is on disk at that point. -/
structure GoogleBodyOut where
  result : Except String SttResult
  httpCalls : Nat
  needsCleanup : Bool
  tempOnDisk : Bool

/-- The body of `GoogleProvider.Transcribe` (everything except the deferred
removal of the converted file).  `.m4a`/`.aac` inputs are converted first;
on conversion success the converted file is on disk and `needsCleanup` is
set. -/
def googleTranscribeBody (env : GoogleEnv) (audioPath : String) : GoogleBodyOut :=
  let fileExt := goToLower (pathExt audioPath)
  if fileExt = ".m4a" ∨ fileExt = ".aac" then
    match convertM4AToWAV env.ffmpeg audioPath with
    | .error e =>
      { result := .error ("failed to convert M4A/AAC to WAV: " ++ e),
        httpCalls := 0, needsCleanup := false, tempOnDisk := false }
    | .ok (_, n) =>
      let (res, calls) := googleAfterRead env n
      { result := res, httpCalls := calls, needsCleanup := true, tempOnDisk := true }
  else
    match env.fileSize audioPath with
    | none =>
      { result := .error "failed to read audio file", httpCalls := 0,
        needsCleanup := false, tempOnDisk := false }
    | some n =>
      let (res, calls) := googleAfterRead env n
      { result := res, httpCalls := calls, needsCleanup := false, tempOnDisk := false }

/-- Models `GoogleProvider.Transcribe`: run the body, then the deferred
`os.Remove` of the converted file (when one was registered) on every exit
path.  Returns the result, the HTTP request count, and whether a temporary
converted file remains on disk after the call. -/
def googleTranscribe (env : GoogleEnv) (audioPath : String) :
    Except String SttResult × Nat × Bool :=
  let b := googleTranscribeBody env audioPath
  (b.result, b.httpCalls, if b.needsCleanup then false else b.tempOnDisk)

/-! ## The in-memory recording store (`internal/storage/audio.go`) -/

/-- Models `storage.Recording`. -/
structure Recording where
  id : String
  path : String
  status : String
  duration : Nat
  size : Nat
  createdAt : String
  transcript : String
  confidence : Rat
  error : String
deriving DecidableEq

/-- Lookup in an association-list map (the Go `map[string]*Recording` etc.;
keys are unique by construction). -/
def assocGet {α : Type} (m : List (String × α)) (k : String) : Option α :=
  match m with
  | [] => none
  | (k', v) :: t => if k' = k then some v else assocGet t k

/-- Insert-or-replace in an association-list map (Go map assignment). -/
def assocSet {α : Type} (m : List (String × α)) (k : String) (v : α) :
    List (String × α) :=
  match m with
  | [] => [(k, v)]
  | (k', v') :: t => if k' = k then (k, v) :: t else (k', v') :: assocSet t k v

/-- The shared shape of the storage mutators: apply `f` to the recording at
`id` when present, otherwise do nothing (the Go setters are guarded by
`if rec, ok := recordings[id]; ok`). -/
def updateRec (m : List (String × Recording)) (id : String)
    (f : Recording → Recording) : List (String × Recording) :=
  match assocGet m id with
  | none => m
  | some r => assocSet m id (f r)

/-- Models `storage.UpdateStatus`. -/
def updateStatus (m : List (String × Recording)) (id status : String) :
    List (String × Recording) :=
  updateRec m id (fun r => { r with status := status })

/-- Models `storage.UpdateTranscript`. -/
def updateTranscript (m : List (String × Recording)) (id : String)
    (transcript : String) (confidence : Rat) : List (String × Recording) :=
  updateRec m id (fun r => { r with transcript := transcript, confidence := confidence })

/-- Models `storage.UpdateError`. -/
def updateError (m : List (String × Recording)) (id errorMsg : String) :
    List (String × Recording) :=
  updateRec m id (fun r => { r with error := errorMsg })

/-- The recording created by `storage.SaveAudio` (status `uploaded`, size and
creation time filled opportunistically, all other fields zero). -/
def newRecording (id path : String) (size : Nat) (createdAt : String) : Recording :=
  { id := id, path := path, status := "uploaded", duration := 0, size := size,
    createdAt := createdAt, transcript := "", confidence := 0, error := "" }

/-! ## The memoized STT provider accessor (`getSTTProvider`) -/

/-- The package-level state behind `getSTTProvider`: the `sync.Once` flag and
the global `sttProvider` variable.  The provider's identity is irrelevant to
the handler logic, so a constructed provider is modelled by `some ()` and a
nil interface by `none`. -/
structure SttSingleton where
  done : Bool
  provider : Option Unit
deriving DecidableEq

/-- Models `getSTTProvider`.  `createOutcome` is what `stt.CreateProvider`
would return if invoked.  On the first call the `Once` body runs and the
closure writes the global and the caller's `err`; on every later call the
`Once` body is skipped, so the local `err` stays nil and the stored global
(nil if construction failed) is returned. -/
def getSTTProvider (createOutcome : Except String Unit) (s : SttSingleton) :
    SttSingleton × Option Unit × Option String :=
  if s.done then (s, s.provider, none)
  else
    match createOutcome with
    | .error e => ({ done := true, provider := none }, none, some e)
    | .ok p => ({ done := true, provider := some p }, some p, none)

/-! ## The transcript cleaner (`internal/ai/clean_transcript.go`) -/

/-- Outcome of the one OpenAI round-trip of `CleanTranscriptWithAI`:
`parsed` means the response content was decoded (directly or after the
markdown-fence strip), `unparsable` that both decode attempts failed. -/
inductive CleanOutcome where
  | noApiKey
  | apiError (msg : String)
  | noChoices
  | unparsable
  | parsed (cleanedText summary : String) (decodedWords : List String)
deriving DecidableEq

/-- Models `CleanTranscriptWithAI`: errors propagate to the caller; a parsed
response with an empty `cleaned_text` field falls back to the original
transcript. -/
def cleanTranscriptWithAI (transcript : String) (o : CleanOutcome) :
    Except String String :=
  match o with
  | .noApiKey => .error "OPENAI_API_KEY environment variable is not set"
  | .apiError e => .error ("OpenAI API error: " ++ e)
  | .noChoices => .error "OpenAI returned no choices"
  | .unparsable => .error "failed to parse OpenAI response as JSON"
  | .parsed cleanedText _ _ =>
    if cleanedText = "" then .ok transcript else .ok cleanedText

/-- All the ways the cleaning step can fail to produce a usable cleaned text:
an error outcome, or a parsed response whose `cleaned_text` field is empty. -/
def cleaningFailed (o : CleanOutcome) : Bool :=
  match o with
  | .noApiKey => true
  | .apiError _ => true
  | .noChoices => true
  | .unparsable => true
  | .parsed cleanedText _ _ => cleanedText == ""

/-! ## The analysis engine (`internal/ai/openai.go`) -/

/-- Models `ai.AnalysisResult` (the variant used by the handlers under
verification). -/
structure AnalysisResult where
  context : String
  summary : List String
  actionItems : List String
  keyPoints : List String
  zaloBrief : String
  confidence : Rat
deriving DecidableEq

/-- Models `generateZaloBrief`: bullet-join the first three summary items and
trim. -/
def generateZaloBrief (summary : List String) : String :=
  if summary = [] then ""
  else trimSpace (String.join ((summary.take 3).map (fun s => "- " ++ s ++ "\n")))

/-- The response-repair pass of `AnalyzeTranscript`: substitute the detected
context when missing, synthesize `zalo_brief` from the summary when missing,
and substitute the first (at most three) summary items for empty key
points. -/
def repairAnalysis (detectedContext : String) (r : AnalysisResult) : AnalysisResult :=
  let r1 := if r.context = "" then { r with context := detectedContext } else r
  let r2 := if r1.zaloBrief = "" ∧ r1.summary ≠ [] then
      { r1 with zaloBrief := generateZaloBrief r1.summary } else r1
  if r2.keyPoints = [] ∧ r2.summary ≠ [] then
    { r2 with keyPoints := r2.summary.take 3 } else r2

/-- Outcome of the one OpenAI round-trip of `AnalyzeTranscript`. -/
inductive AnalyzeOutcome where
  | noApiKey
  | apiError (msg : String)
  | noChoices
  | unparsable
  | parsed (raw : AnalysisResult)
deriving DecidableEq

/-- Models `AnalyzeTranscript`: the result-or-error together with the number
of chat-completion (extraction) calls issued.  A missing API key aborts
before any call; every other outcome corresponds to exactly one call. -/
def analyzeTranscript (o : AnalyzeOutcome) (transcript detectedContext : String) :
    Except String AnalysisResult × Nat :=
  let ctx := if detectedContext = "" then detectContext transcript else detectedContext
  match o with
  | .noApiKey => (.error "OPENAI_API_KEY environment variable is not set", 0)
  | .apiError e => (.error ("OpenAI API error: " ++ e), 1)
  | .noChoices => (.error "OpenAI returned no choices", 1)
  | .unparsable => (.error "failed to parse OpenAI response as JSON", 1)
  | .parsed raw => (.ok (repairAnalysis ctx raw), 1)

/-! ## The HTTP handlers (`processRecording`, `analyzeRecording`) -/

/-- The whole mutable server state the handlers touch: the recording map,
the analysis cache and the provider singleton. -/
structure Store where
  recordings : List (String × Recording)
  analyses : List (String × AnalysisResult)
  stt : SttSingleton
deriving DecidableEq

/-- The server state at process start. -/
def initialStore : Store :=
  { recordings := [], analyses := [], stt := { done := false, provider := none } }

/-- External-effect outcomes for one `processRecording` request: what
`stt.CreateProvider` would return if the `Once` body runs, the outcome of
`provider.Transcribe` per audio path, and the outcome of the cleaning
round-trip. -/
structure ProcEnv where
  createOutcome : Except String Unit
  transcribe : String → Except String SttResult
  cleanOutcome : CleanOutcome

/-- The response of a `processRecording` request, by exit path. -/
inductive ProcResp where
  | badRequest (msg : String)
  | notFound
  | conflict
  | providerUnavailable (msg : String)
  | sttFailed (msg : String)
  | noSpeech
  | success (transcript : String) (confidence : Rat)
  | nilPanic
deriving DecidableEq

/-- Models the `processRecording` handler.  Returns the new store, the
response, and the number of `Transcribe` invocations performed on a
constructed provider.  `ProcResp.nilPanic` marks the path where the handler
calls `Transcribe` on a nil provider interface (which panics in Go): the
store at that point has the recording stuck in `processing`. -/
def processRecording (env : ProcEnv) (st : Store) (id : String) :
    Store × ProcResp × Nat :=
  if id = "" then (st, .badRequest "recording_id is required", 0)
  else
    match assocGet st.recordings id with
    | none => (st, .notFound, 0)
    | some rec =>
      if rec.status = "processing" then (st, .conflict, 0)
      else if rec.status = "processed" ∧ rec.transcript ≠ "" then
        (st, .success rec.transcript rec.confidence, 0)
      else
        let st1 : Store := { st with recordings := updateStatus st.recordings id "processing" }
        match getSTTProvider env.createOutcome st1.stt with
        | (s', _, some e) =>
          let st2 : Store := { st1 with stt := s' }
          let msg := "STT provider not available: " ++ e
          let recs := updateError (updateStatus st2.recordings id "failed") id msg
          ({ st2 with recordings := recs }, .providerUnavailable msg, 0)
        | (s', none, none) =>
          ({ st1 with stt := s' }, .nilPanic, 0)
        | (s', some _, none) =>
          let st2 : Store := { st1 with stt := s' }
          match env.transcribe rec.path with
          | .error e =>
            let recs := updateError (updateStatus st2.recordings id "failed") id e
            ({ st2 with recordings := recs }, .sttFailed e, 1)
          | .ok r =>
            if r.transcript = "" then
              let recs := updateError (updateStatus st2.recordings id "failed") id
                "empty transcript"
              ({ st2 with recordings := recs }, .noSpeech, 1)
            else
              let cleanedText :=
                match cleanTranscriptWithAI r.transcript env.cleanOutcome with
                | .error _ => r.transcript
                | .ok c => c
              let recs := updateStatus
                (updateTranscript st2.recordings id cleanedText r.confidence)
                id "processed"
              ({ st2 with recordings := recs }, .success cleanedText r.confidence, 1)

/-- The response of an `analyzeRecording` request, by exit path. -/
inductive AnalyzeResp where
  | badRequest (msg : String)
  | notFound
  | noTranscript
  | result (r : AnalysisResult)
  | aiError (msg : String)
deriving DecidableEq

/-- Models the `analyzeRecording` handler.  Returns the new store, the
response, and the number of extraction (chat-completion) calls issued. -/
def analyzeRecording (o : AnalyzeOutcome) (st : Store) (id : String) :
    Store × AnalyzeResp × Nat :=
  if id = "" then (st, .badRequest "recording_id is required", 0)
  else
    match assocGet st.recordings id with
    | none => (st, .notFound, 0)
    | some rec =>
      if rec.transcript = "" then (st, .noTranscript, 0)
      else
        match assocGet st.analyses id with
        | some existing => (st, .result existing, 0)
        | none =>
          let detected := detectContext rec.transcript
          match analyzeTranscript o rec.transcript detected with
          | (.error e, n) => (st, .aiError e, n)
          | (.ok r, n) =>
            ({ st with analyses := assocSet st.analyses id r }, .result r, n)

/-- Run a sequence of `analyzeRecording` requests for the same id (one
round-trip outcome per request) and total up the extraction calls. -/
def runAnalyzeSeq (st : Store) (id : String) :
    List AnalyzeOutcome → Store × Nat
  | [] => (st, 0)
  | o :: rest =>
    let (st', _, n) := analyzeRecording o st id
    let (st'', m) := runAnalyzeSeq st' id rest
    (st'', n + m)

/-! ## Operation sequences over the store -/

/-- One client-visible operation against the server, together with the
external-effect outcomes consumed while serving it.  `upload` is the
creation step of `uploadRecording`/`SaveAudio` (its id is freshly generated
in Go); `readReq` covers the pure read endpoints. -/
inductive Op where
  | upload (id path : String) (size : Nat) (createdAt : String)
  | procReq (env : ProcEnv) (id : String)
  | analyzeReq (o : AnalyzeOutcome) (id : String)
  | readReq (id : String)

/-- The state transition of one operation. -/
def step (st : Store) : Op → Store
  | .upload id path size createdAt =>
    { st with recordings := assocSet st.recordings id (newRecording id path size createdAt) }
  | .procReq env id => (processRecording env st id).1
  | .analyzeReq o id => (analyzeRecording o st id).1
  | .readReq _ => st

/-- Run a sequence of operations. -/
def run (st : Store) : List Op → Store
  | [] => st
  | op :: rest => run (step st op) rest

/-- Transcription failures surfaced by the real providers always carry a
non-empty message (every error in `internal/stt` is built with
`fmt.Errorf` from a non-empty format string); environments used in
reachability statements are assumed to respect this. -/
def ProcEnv.wfErrors (env : ProcEnv) : Prop :=
  ∀ p e, env.transcribe p = .error e → e ≠ ""

/-- Well-formedness of the effect outcomes carried by an operation. -/
def Op.wfErrors : Op → Prop
  | .procReq env _ => env.wfErrors
  | _ => True

/-- The `errorMessage`/`failed` direction of the store invariant: every
recording in status `failed` carries a non-empty error message. -/
def FailedHasError (m : List (String × Recording)) : Prop :=
  ∀ id r, assocGet m id = some r → r.status = "failed" → r.error ≠ ""

/-! ## The durable mirror (`postgresRepository.UpdateResult` and the sync
helpers of the api package) -/

/-- JSON-like values stored in the `metadata` JSONB column, restricted to the
shapes the sync layer actually writes. -/
inductive JVal where
  | str : String → JVal
  | strList : List String → JVal
  | obj : List (String × JVal) → JVal

/-- The update request consumed by `UpdateResult` (the fields of
`model.STTRequest` it binds).  Pointer fields (`*string`, `*float64`,
`*int`) are `Option`s, a Go `nil` binding to SQL `NULL`; `Status` is a plain
Go string and can never be `NULL`. -/
structure STTUpdate where
  transcript : Option String
  confidence : Option Rat
  status : String
  errorMessage : Option String
  processingTimeMs : Option Nat
  audioDurationMs : Option Nat
  audioSizeBytes : Option Nat
  title : Option String
  metadata : List (String × JVal)

/-- The updatable columns of one `stt_requests` row. -/
structure DbRow where
  transcript : Option String
  confidence : Option Rat
  status : String
  errorMessage : Option String
  processingTimeMs : Option Nat
  audioDurationMs : Option Nat
  audioSizeBytes : Option Nat
  title : Option String
  metadata : List (String × JVal)

/-- `COALESCE(new, old)`: the new value unless it is `NULL`. -/
def coalesceO {α : Type} (newV oldV : Option α) : Option α :=
  match newV with
  | some v => some v
  | none => oldV

/-- The Go-side metadata merge of `UpdateResult`: start from the existing
blob and assign every key of the new map (`existingMetadata[k] = v`). -/
def mdUnion (oldMd newMd : List (String × JVal)) : List (String × JVal) :=
  newMd.foldl (fun acc kv => assocSet acc kv.1 kv.2) oldMd

/-- Models `postgresRepository.UpdateResult` on a row that exists: the
`COALESCE` update of each column, the `NULLIF`-guarded title, and — only when
the request carries metadata — the key-level merge of old and new metadata. -/
def updateResult (row : DbRow) (u : STTUpdate) : DbRow :=
  { transcript := coalesceO u.transcript row.transcript
    confidence := coalesceO u.confidence row.confidence
    status := u.status
    errorMessage := coalesceO u.errorMessage row.errorMessage
    processingTimeMs := coalesceO u.processingTimeMs row.processingTimeMs
    audioDurationMs := coalesceO u.audioDurationMs row.audioDurationMs
    audioSizeBytes := coalesceO u.audioSizeBytes row.audioSizeBytes
    title :=
      match u.title with
      | none => row.title
      | some t => if t = "" then row.title else some t
    metadata :=
      match u.metadata with
      | [] => row.metadata
      | _ :: _ => mdUnion row.metadata u.metadata }

/-- The update request built by `syncToDatabase` for an already-mapped
recording: status always, transcript/confidence when a transcript exists,
the error message when set, duration/size when positive, no metadata. -/
def syncUpdateReq (rec : Recording) : STTUpdate :=
  { transcript := if rec.transcript ≠ "" then some rec.transcript else none
    confidence := if rec.transcript ≠ "" then some rec.confidence else none
    status := rec.status
    errorMessage := if rec.error ≠ "" then some rec.error else none
    processingTimeMs := none
    audioDurationMs := if rec.duration > 0 then some (rec.duration * 1000) else none
    audioSizeBytes := if rec.size > 0 then some rec.size else none
    title := none
    metadata := [] }

/-- The `ai_analysis` metadata value built by `syncAnalysisToDatabase`. -/
def aiAnalysisVal (a : AnalysisResult) : JVal :=
  .obj [("context", .str a.context), ("summary", .strList a.summary),
        ("key_points", .strList a.keyPoints),
        ("action_items", .strList a.actionItems),
        ("zalo_brief", .str a.zaloBrief)]

/-- The update request built by `syncAnalysisToDatabase`: status `success`
and the analysis metadata, nothing else. -/
def analysisUpdateReq (recordingID : String) (a : AnalysisResult) : STTUpdate :=
  { transcript := none, confidence := none, status := "success",
    errorMessage := none, processingTimeMs := none, audioDurationMs := none,
    audioSizeBytes := none, title := none,
    metadata := [("recording_id", .str recordingID), ("ai_analysis", aiAnalysisVal a)] }

/-! ## Concrete data used in witnesses and counterexamples -/

/-- A successful transcription result for concrete runs. -/
def okResultW : SttResult :=
  { transcript := "xin chao ca nha", confidence := 1, provider := "fpt",
    rawResponse := "rawbody" }

/-- Effects of a process request whose transcription fails. -/
def envSttFail : ProcEnv :=
  { createOutcome := .ok (), transcribe := fun _ => .error "stt boom",
    cleanOutcome := .unparsable }

/-- Effects of a process request whose transcription succeeds (with an
unparsable cleaning response, so the raw transcript is kept). -/
def envSttOk : ProcEnv :=
  { createOutcome := .ok (), transcribe := fun _ => .ok okResultW,
    cleanOutcome := .unparsable }

/-- Upload a recording, fail to process it, then re-process successfully. -/
def opsRetry : List Op :=
  [.upload "r1" "uploads/r1.wav" 5000 "2025-01-01T00:00:00Z",
   .procReq envSttFail "r1", .procReq envSttOk "r1"]

/-- Upload a recording and fail to process it. -/
def opsFailOnce : List Op :=
  [.upload "r1" "uploads/r1.wav" 5000 "2025-01-01T00:00:00Z",
   .procReq envSttFail "r1"]

/-- The recording that `opsFailOnce` leaves in the store. -/
def recFailedW : Recording :=
  { id := "r1", path := "uploads/r1.wav", status := "failed", duration := 0,
    size := 5000, createdAt := "2025-01-01T00:00:00Z", transcript := "",
    confidence := 0, error := "stt boom" }

/-- A recording already processed with a stored transcript. -/
def recProcessedW : Recording :=
  { id := "r2", path := "uploads/r2.wav", status := "processed", duration := 0,
    size := 4000, createdAt := "2025-01-01T00:00:00Z",
    transcript := "chúng ta cần họp để chốt deadline dự án", confidence := 1,
    error := "" }

/-- A store holding `recProcessedW`. -/
def stProcessedW : Store :=
  { recordings := [("r2", recProcessedW)], analyses := [],
    stt := { done := true, provider := some () } }

/-- A recording currently being processed. -/
def recProcessingW : Recording :=
  { recProcessedW with id := "r3", status := "processing", transcript := "" }

/-- A store holding `recProcessingW`. -/
def stProcessingW : Store :=
  { recordings := [("r3", recProcessingW)], analyses := [],
    stt := { done := false, provider := none } }

/-- A freshly uploaded recording. -/
def recUploadedW : Recording :=
  newRecording "r4" "uploads/r4.m4a" 4000 "2025-01-01T00:00:00Z"

/-- A store holding `recUploadedW`, provider not yet constructed. -/
def stUploadedW : Store :=
  { recordings := [("r4", recUploadedW)], analyses := [],
    stt := { done := false, provider := none } }

/-- Effects of a process request whose transcription succeeds but whose
cleaning round-trip fails with an API error. -/
def envCleanFailW : ProcEnv :=
  { createOutcome := .ok (), transcribe := fun _ => .ok okResultW,
    cleanOutcome := .apiError "rate limited" }

/-- A raw analysis as parsed from the model (context and brief missing). -/
def rawAnalysisW : AnalysisResult :=
  { context := "", summary := ["điểm một", "điểm hai"], actionItems := [],
    keyPoints := [], zaloBrief := "", confidence := 0 }

/-- A well-parsed Google STT body. -/
def googleBodyOkW : GoogleBody :=
  { results := [{ alternatives := [{ transcript := "xin chao", confidence := 1 }] }],
    error := none }

/-- A sub-threshold `.m4a` input (900 bytes on disk) whose ffmpeg conversion
produces a 2000-byte WAV, with a healthy upstream backend. -/
def gEnvSmallM4a : GoogleEnv :=
  { fileSize := fun p => if p = "small.m4a" then some 900 else none,
    ffmpeg := .output 2000, http := .resp 200 "rawbody" (some googleBodyOkW) }

/-- A 500-byte audio file as seen by the FPT provider. -/
def fptEnvSmallW : FptEnv :=
  { fileSize := fun _ => some 500, http := .resp 200 "rawbody" none }

/-- A 500-byte `.wav` input as seen by the Google provider. -/
def gEnvSmallWavW : GoogleEnv :=
  { fileSize := fun _ => some 500, ffmpeg := .cmdFail "nothing to convert",
    http := .resp 200 "rawbody" (some googleBodyOkW) }

/-- An `.m4a` input whose conversion yields only 800 bytes. -/
def gEnvConvSmallW : GoogleEnv :=
  { fileSize := fun _ => some 5000, ffmpeg := .output 800,
    http := .resp 200 "rawbody" (some googleBodyOkW) }

/-- An `.m4a` input with a successful 2000-byte conversion whose upstream
call then times out. -/
def gEnvConvOkW : GoogleEnv :=
  { fileSize := fun _ => some 5000, ffmpeg := .output 2000,
    http := .netError "context deadline exceeded" }

/-- A durable row as first created for a recording (metadata carries the
back-reference). -/
def rowBaseW : DbRow :=
  { transcript := none, confidence := none, status := "processing",
    errorMessage := none, processingTimeMs := none, audioDurationMs := none,
    audioSizeBytes := none, title := none,
    metadata := [("recording_id", .str "r2")] }

/-- A durable row already holding a transcript and a status. -/
def rowPopulatedW : DbRow :=
  { rowBaseW with status := "processed", transcript := some "hello" }

/-- An update request whose fields are all absent (`nil` pointers, zero-value
status, no metadata). -/
def emptyStatusUpd : STTUpdate :=
  { transcript := none, confidence := none, status := "", errorMessage := none,
    processingTimeMs := none, audioDurationMs := none, audioSizeBytes := none,
    title := none, metadata := [] }

/-- A complete analysis result for concrete runs. -/
def analysisW : AnalysisResult :=
  { context := "meeting", summary := ["điểm một"], actionItems := ["gửi báo cáo"],
    keyPoints := ["deadline"], zaloBrief := "- điểm một", confidence := 1 }

/-- A store whose provider singleton recorded a failed first construction. -/
def stNilProvW : Store :=
  { recordings := [("r5", newRecording "r5" "uploads/r5.wav" 3000 "2025-01-01T00:00:00Z")],
    analyses := [], stt := { done := true, provider := none } }

/-- The repaired analysis produced from `rawAnalysisW` for `recProcessedW`. -/
def repairedW : AnalysisResult :=
  repairAnalysis (detectContext recProcessedW.transcript) rawAnalysisW

/-- `stProcessedW` after the first analyze request stored `repairedW`. -/
def stA1W : Store :=
  { stProcessedW with analyses := assocSet stProcessedW.analyses "r2" repairedW }

/-! # Theorems -/

theorem assocGet_assocSet_self {α : Type} (m : List (String × α)) (k : String) (v : α) :
    assocGet (assocSet m k v) k = some v := by
  induction m with
  | nil => simp [assocSet, assocGet]
  | cons h t ih =>
    obtain ⟨k', v'⟩ := h
    by_cases hk : k' = k
    · simp [assocSet, hk, assocGet]
    · simp [assocSet, hk, assocGet, ih]

theorem assocGet_assocSet_ne {α : Type} (m : List (String × α)) (k k' : String) (v : α)
    (h : k ≠ k') : assocGet (assocSet m k v) k' = assocGet m k' := by
  induction m with
  | nil => simp [assocSet, assocGet, h]
  | cons hd t ih =>
    obtain ⟨k0, v0⟩ := hd
    by_cases hk : k0 = k
    · subst hk
      simp [assocSet, assocGet, h]
    · simp [assocSet, hk, assocGet, ih]

theorem assocGet_updateRec_self (m : List (String × Recording)) (id : String)
    (f : Recording → Recording) :
    assocGet (updateRec m id f) id = (assocGet m id).map f := by
  unfold updateRec
  cases h : assocGet m id with
  | none => simp [h]
  | some r => simp [h, assocGet_assocSet_self]

theorem assocGet_updateRec_ne (m : List (String × Recording)) (id : String)
    (f : Recording → Recording) (k : String) (h : id ≠ k) :
    assocGet (updateRec m id f) k = assocGet m k := by
  unfold updateRec
  cases h' : assocGet m id with
  | none => rfl
  | some r => simp [assocGet_assocSet_ne _ _ _ _ h]

theorem dataAppend (p s : String) : (p ++ s).data = p.data ++ s.data := by
  cases p; cases s; rfl

theorem appendLeftNe (p s : String) (h : p.data ≠ []) : p ++ s ≠ "" := by
  intro hc
  apply h
  have h2 := congrArg String.data hc
  rw [dataAppend] at h2
  exact (List.append_eq_nil.mp h2).1

/-- Claim C1: a process request against an already-processed recording with a
non-empty transcript short-circuits: it returns the stored transcript and
confidence, performs no `Transcribe` invocation, and leaves the whole store
(in particular the recording) unchanged. -/
theorem C1_process_idempotent_short_circuit (env : ProcEnv) (st : Store)
    (id : String) (rec : Recording)
    (hid : id ≠ "") (hget : assocGet st.recordings id = some rec)
    (hst : rec.status = "processed") (ht : rec.transcript ≠ "") :
    processRecording env st id = (st, .success rec.transcript rec.confidence, 0) := by
  simp [processRecording, hid, hget, hst, ht]

theorem C1_witness : processRecording envSttOk stProcessedW "r2" =
    (stProcessedW, .success recProcessedW.transcript recProcessedW.confidence, 0) :=
  C1_process_idempotent_short_circuit envSttOk stProcessedW "r2" recProcessedW
    (by decide) (by decide) (by decide) (by decide)

/-- Claim C2: a process request against a recording in status `processing` is
rejected with a conflict and the store — hence every field of the
recording — is left unchanged. -/
theorem C2_process_conflict (env : ProcEnv) (st : Store) (id : String)
    (rec : Recording)
    (hid : id ≠ "") (hget : assocGet st.recordings id = some rec)
    (hst : rec.status = "processing") :
    processRecording env st id = (st, .conflict, 0) := by
  simp [processRecording, hid, hget, hst]

theorem C2_witness :
    processRecording envSttOk stProcessingW "r3" = (stProcessingW, .conflict, 0) :=
  C2_process_conflict envSttOk stProcessingW "r3" recProcessingW
    (by decide) (by decide) (by decide)

theorem failedHasError_updateStatus (m : List (String × Recording)) (id s : String)
    (hs : s ≠ "failed") (h : FailedHasError m) : FailedHasError (updateStatus m id s) := by
  intro k r hget hf
  by_cases hk : id = k
  · subst hk
    rw [updateStatus, assocGet_updateRec_self] at hget
    cases hm : assocGet m id with
    | none => rw [hm] at hget; simp at hget
    | some r0 =>
      rw [hm] at hget
      simp at hget
      have hrs : r.status = s := by rw [← hget]
      rw [hrs] at hf
      exact absurd hf hs
  · rw [updateStatus, assocGet_updateRec_ne _ _ _ _ hk] at hget
    exact h k r hget hf

theorem failedHasError_updateTranscript (m : List (String × Recording))
    (id t : String) (c : Rat) (h : FailedHasError m) :
    FailedHasError (updateTranscript m id t c) := by
  intro k r hget hf
  by_cases hk : id = k
  · subst hk
    rw [updateTranscript, assocGet_updateRec_self] at hget
    cases hm : assocGet m id with
    | none => rw [hm] at hget; simp at hget
    | some r0 =>
      rw [hm] at hget
      simp at hget
      have hrs : r.status = r0.status := by rw [← hget]
      have hre : r.error = r0.error := by rw [← hget]
      rw [hre]
      exact h id r0 hm (by rw [← hrs]; exact hf)
  · rw [updateTranscript, assocGet_updateRec_ne _ _ _ _ hk] at hget
    exact h k r hget hf

theorem failedHasError_fail (m : List (String × Recording)) (id e : String)
    (he : e ≠ "") (h : FailedHasError m) :
    FailedHasError (updateError (updateStatus m id "failed") id e) := by
  intro k r hget hf
  by_cases hk : id = k
  · subst hk
    rw [updateError, assocGet_updateRec_self, updateStatus,
        assocGet_updateRec_self] at hget
    cases hm : assocGet m id with
    | none => rw [hm] at hget; simp at hget
    | some r0 =>
      rw [hm] at hget
      simp at hget
      have hre : r.error = e := by rw [← hget]
      rw [hre]
      exact he
  · rw [updateError, assocGet_updateRec_ne _ _ _ _ hk, updateStatus,
        assocGet_updateRec_ne _ _ _ _ hk] at hget
    exact h k r hget hf

theorem failedHasError_upload (m : List (String × Recording))
    (id path : String) (size : Nat) (createdAt : String) (h : FailedHasError m) :
    FailedHasError (assocSet m id (newRecording id path size createdAt)) := by
  intro k r hget hf
  by_cases hk : id = k
  · subst hk
    rw [assocGet_assocSet_self] at hget
    cases hget
    simp [newRecording] at hf
  · rw [assocGet_assocSet_ne _ _ _ _ hk] at hget
    exact h k r hget hf

theorem analyzeRecording_recordings (o : AnalyzeOutcome) (st : Store) (id : String) :
    (analyzeRecording o st id).1.recordings = st.recordings := by
  simp only [analyzeRecording]
  repeat' split
  all_goals rfl

theorem processRecording_failedHasError (env : ProcEnv) (st : Store) (id : String)
    (hwf : env.wfErrors) (h : FailedHasError st.recordings) :
    FailedHasError (processRecording env st id).1.recordings := by
  simp only [processRecording]
  split
  · exact h
  split
  · exact h
  next rec heq =>
    split
    · exact h
    split
    · exact h
    split
    next s' x e hm =>
      exact failedHasError_fail _ _ _ (appendLeftNe _ _ (by decide))
        (failedHasError_updateStatus _ _ _ (by decide) h)
    next s' hm => exact failedHasError_updateStatus _ _ _ (by decide) h
    next s' u hm =>
      split
      next e htr =>
        exact failedHasError_fail _ _ _ (hwf _ _ htr)
          (failedHasError_updateStatus _ _ _ (by decide) h)
      next r htr =>
        split
        · exact failedHasError_fail _ _ _ (by decide)
            (failedHasError_updateStatus _ _ _ (by decide) h)
        · exact failedHasError_updateStatus _ _ _ (by decide)
            (failedHasError_updateTranscript _ _ _ _
              (failedHasError_updateStatus _ _ _ (by decide) h))

theorem step_failedHasError (st : Store) (op : Op) (hwf : op.wfErrors)
    (h : FailedHasError st.recordings) : FailedHasError (step st op).recordings := by
  cases op with
  | upload id path size createdAt => exact failedHasError_upload _ _ _ _ _ h
  | procReq env id => exact processRecording_failedHasError env st id hwf h
  | analyzeReq o id =>
    show FailedHasError (analyzeRecording o st id).1.recordings
    rw [analyzeRecording_recordings]
    exact h
  | readReq id => exact h

theorem run_failedHasError (ops : List Op) (st : Store)
    (hwf : ∀ op ∈ ops, op.wfErrors) (h : FailedHasError st.recordings) :
    FailedHasError (run st ops).recordings := by
  induction ops generalizing st with
  | nil => exact h
  | cons op rest ih =>
    exact ih (step st op) (fun o ho => hwf o (List.mem_cons_of_mem _ ho))
      (step_failedHasError st op (hwf op (List.mem_cons_self _ _)) h)

theorem opsFailOnce_wf : ∀ op ∈ opsFailOnce, op.wfErrors := by
  intro op hop
  simp [opsFailOnce] at hop
  rcases hop with h | h
  · subst h; trivial
  · subst h
    intro p e he
    simp [envSttFail] at he
    subst he
    decide

/-- Claim C3, counterexample to the stated biconditional: after upload, a
failed process attempt and a successful re-process (all with well-formed
effect outcomes), recording `r1` ends in status `processed` while its
`errorMessage` still holds the old transcription error — so a non-empty
`errorMessage` does not imply status `failed`. -/
theorem C3_counterexample :
    (assocGet (run initialStore opsRetry).recordings "r1").map
      (fun r => (r.status, r.error)) = some ("processed", "stt boom") := by decide

/-- Claim C3, amended: in every store reachable by upload/process/analyze/read
operations whose transcription errors are non-empty, a recording in status
`failed` has a non-empty `errorMessage`.  (The converse direction of the
original claim is false: a failed attempt's error message survives a later
successful re-process, see the counterexample.) -/
theorem C3_amended_failed_has_error (ops : List Op)
    (hwf : ∀ op ∈ ops, op.wfErrors) (id : String) (r : Recording)
    (hget : assocGet (run initialStore ops).recordings id = some r)
    (hf : r.status = "failed") : r.error ≠ "" := by
  refine run_failedHasError ops initialStore hwf ?_ id r hget hf
  intro k rr hg hff
  simp [initialStore, assocGet] at hg

theorem C3_witness : recFailedW.error ≠ "" :=
  C3_amended_failed_has_error opsFailOnce opsFailOnce_wf "r1" recFailedW
    (by decide) (by decide)

theorem cleanFallbackLemma (t : String) (o : CleanOutcome)
    (h : cleaningFailed o = true) :
    (match cleanTranscriptWithAI t o with
     | .error _ => t
     | .ok c => c) = t := by
  cases o with
  | noApiKey => rfl
  | apiError m => rfl
  | noChoices => rfl
  | unparsable => rfl
  | parsed ct s dw =>
    simp [cleaningFailed] at h
    simp [cleanTranscriptWithAI, h]

/-- Claim C5: when transcription succeeds with a non-empty raw transcript but
the cleaning step fails (API error, no choices, unparsable output even after
the markdown-fence retry, or an empty cleaned-text field), the pipeline
stores the raw transcript unchanged and the recording reaches status
`processed`, not `failed`. -/
theorem C5_cleaner_fallback (env : ProcEnv) (st : Store) (id : String)
    (rec : Recording) (s' : SttSingleton) (r : SttResult)
    (hid : id ≠ "") (hget : assocGet st.recordings id = some rec)
    (hnp : rec.status ≠ "processing")
    (hnd : ¬(rec.status = "processed" ∧ rec.transcript ≠ ""))
    (hprov : getSTTProvider env.createOutcome st.stt = (s', some (), none))
    (htr : env.transcribe rec.path = .ok r) (hraw : r.transcript ≠ "")
    (hclean : cleaningFailed env.cleanOutcome = true) :
    (processRecording env st id).2.1 = ProcResp.success r.transcript r.confidence ∧
    (processRecording env st id).2.2 = 1 ∧
    (assocGet (processRecording env st id).1.recordings id).map
      (fun x => (x.transcript, x.status)) = some (r.transcript, "processed") := by
  have hcl := cleanFallbackLemma r.transcript env.cleanOutcome hclean
  simp [processRecording, hget, hprov, htr, hcl, hid, hnp, hnd, hraw]
  rw [updateStatus, assocGet_updateRec_self, updateTranscript, assocGet_updateRec_self,
      updateStatus, assocGet_updateRec_self, hget]
  simp

theorem C5_witness :
    (processRecording envCleanFailW stUploadedW "r4").2.1 =
      ProcResp.success okResultW.transcript okResultW.confidence ∧
    (processRecording envCleanFailW stUploadedW "r4").2.2 = 1 ∧
    (assocGet (processRecording envCleanFailW stUploadedW "r4").1.recordings "r4").map
      (fun x => (x.transcript, x.status)) = some (okResultW.transcript, "processed") :=
  C5_cleaner_fallback envCleanFailW stUploadedW "r4" recUploadedW
    ⟨true, some ()⟩ okResultW
    (by decide) (by decide) (by decide) (by decide) (by decide) rfl
    (by decide) rfl

/-- Claim C10: if the first invocation of the memoized provider accessor
fails, every later invocation returns a nil provider together with a nil
error, so a later process request passes the error check and reaches the
`Transcribe` method call on the nil provider (a panic in Go) instead of
marking the recording `failed` — it is left in status `processing`. -/
theorem C10_nil_provider_after_failed_first_init :
    (∀ e, getSTTProvider (.error e) { done := false, provider := none } =
      ({ done := true, provider := none }, none, some e)) ∧
    (∀ o, getSTTProvider o { done := true, provider := none } =
      ({ done := true, provider := none }, none, none)) ∧
    (∀ (env : ProcEnv) (st : Store) (id : String) (rec : Recording),
      id ≠ "" → st.stt = { done := true, provider := none } →
      assocGet st.recordings id = some rec →
      rec.status ≠ "processing" → ¬(rec.status = "processed" ∧ rec.transcript ≠ "") →
      (processRecording env st id).2.1 = ProcResp.nilPanic ∧
      (processRecording env st id).2.2 = 0 ∧
      (assocGet (processRecording env st id).1.recordings id).map Recording.status =
        some "processing") := by
  refine ⟨fun e => rfl, fun o => by simp [getSTTProvider], ?_⟩
  intro env st id rec hid hstt hget hnp hnd
  simp [processRecording, hid, hget, hnp, hnd, hstt, getSTTProvider]
  rw [updateStatus, assocGet_updateRec_self, hget]
  simp

theorem C10_witness :
    (processRecording envSttOk stNilProvW "r5").2.1 = ProcResp.nilPanic ∧
    (processRecording envSttOk stNilProvW "r5").2.2 = 0 ∧
    (assocGet (processRecording envSttOk stNilProvW "r5").1.recordings "r5").map
      Recording.status = some "processing" :=
  C10_nil_provider_after_failed_first_init.2.2 envSttOk stNilProvW "r5"
    (newRecording "r5" "uploads/r5.wav" 3000 "2025-01-01T00:00:00Z")
    (by decide) (by decide) (by decide) (by decide) (by decide)

/-- Claim C4: the first analyze request for a recording with no stored
analysis performs exactly one extraction call and stores the (repaired)
result; every subsequent analyze request for the same id — in any number and
with any round-trip outcomes — returns the stored result with zero extraction
calls and leaves the stored result unmodified. -/
theorem C4_analysis_cached_once (st : Store) (id : String) (rec : Recording)
    (raw : AnalysisResult)
    (hid : id ≠ "") (hget : assocGet st.recordings id = some rec)
    (ht : rec.transcript ≠ "") (hnone : assocGet st.analyses id = none) :
    analyzeRecording (.parsed raw) st id =
      ({ st with analyses := assocSet st.analyses id (repairAnalysis (detectContext rec.transcript) raw) },
        AnalyzeResp.result (repairAnalysis (detectContext rec.transcript) raw), 1) ∧
    (∀ o', analyzeRecording o'
        { st with analyses := assocSet st.analyses id (repairAnalysis (detectContext rec.transcript) raw) } id =
      ({ st with analyses := assocSet st.analyses id (repairAnalysis (detectContext rec.transcript) raw) },
        AnalyzeResp.result (repairAnalysis (detectContext rec.transcript) raw), 0)) ∧
    (∀ os, runAnalyzeSeq
        { st with analyses := assocSet st.analyses id (repairAnalysis (detectContext rec.transcript) raw) } id os =
      ({ st with analyses := assocSet st.analyses id (repairAnalysis (detectContext rec.transcript) raw) }, 0)) := by
  have hstep : ∀ o', analyzeRecording o'
      { st with analyses := assocSet st.analyses id (repairAnalysis (detectContext rec.transcript) raw) } id =
      ({ st with analyses := assocSet st.analyses id (repairAnalysis (detectContext rec.transcript) raw) },
        AnalyzeResp.result (repairAnalysis (detectContext rec.transcript) raw), 0) := by
    intro o'
    simp [analyzeRecording, hid, hget, ht, assocGet_assocSet_self]
  refine ⟨?_, hstep, ?_⟩
  · simp [analyzeRecording, hid, hget, ht, hnone, analyzeTranscript]
  · intro os
    induction os with
    | nil => rfl
    | cons o rest ih => simp [runAnalyzeSeq, hstep o, ih]

theorem C4_witness :
    analyzeRecording (.parsed rawAnalysisW) stProcessedW "r2" =
      (stA1W, AnalyzeResp.result repairedW, 1) ∧
    runAnalyzeSeq stA1W "r2" [.unparsable, .apiError "overloaded", .parsed analysisW] =
      (stA1W, 0) := by
  have h := C4_analysis_cached_once stProcessedW "r2" recProcessedW rawAnalysisW
    (by decide) (by decide) (by decide) (by decide)
  exact ⟨h.1, h.2.2 [.unparsable, .apiError "overloaded", .parsed analysisW]⟩

theorem countContained_eq (t : String) (kws : List String) :
    countContained t kws = (kws.filter (fun kw => strContains t kw)).length := by
  unfold countContained
  suffices h : ∀ acc, List.foldl (fun a kw => if strContains t kw then a + 1 else a) acc kws =
      acc + (kws.filter (fun kw => strContains t kw)).length by
    simpa using h 0
  induction kws with
  | nil => intro acc; simp
  | cons k rest ih =>
    intro acc
    cases hk : strContains t k with
    | false => simp [hk, List.filter_cons, ih]
    | true =>
      simp [hk, List.filter_cons, ih]
      omega

/-- Claim C6: context detection is a pure deterministic function of the
transcript: over the lowercased transcript it counts matches of the fixed
meeting and lecture keyword sets and classifies — `meeting` when the meeting
count is non-zero and at least the lecture count, else `lecture` when the
lecture count is non-zero, else `thinking`; and the three sample transcripts
classify as `meeting`, `lecture` and `thinking` respectively. -/
theorem C6_detect_context :
    (∀ t : String,
      detectContext t =
        (if 0 < (meetingKeywords.filter (fun kw => strContains (goToLower t) kw)).length ∧
            (lectureKeywords.filter (fun kw => strContains (goToLower t) kw)).length ≤
              (meetingKeywords.filter (fun kw => strContains (goToLower t) kw)).length
         then "meeting"
         else if 0 < (lectureKeywords.filter (fun kw => strContains (goToLower t) kw)).length
         then "lecture" else "thinking")) ∧
    detectContext "chúng ta cần họp để chốt deadline dự án" = "meeting" ∧
    detectContext "hôm nay thầy giảng về khái niệm mới" = "lecture" ∧
    detectContext "tôi đang suy nghĩ về một ý tưởng" = "thinking" := by
  refine ⟨fun t => ?_, by decide, by decide, by decide⟩
  simp only [detectContext, countContained_eq]

/-- Claim C7, counterexample to the claim as stated: a 900-byte `.m4a` input
(below the 1000-byte threshold) whose conversion yields a 2000-byte WAV is
transcribed successfully by the Google provider with one HTTP request — the
minimum-size check runs on the converted payload, not the input file. -/
theorem C7_counterexample :
    gEnvSmallM4a.fileSize "small.m4a" = some 900 ∧ (900 : Nat) < 1000 ∧
    googleTranscribe gEnvSmallM4a "small.m4a" =
      (.ok { transcript := "xin chao", confidence := 1, provider := "google",
             rawResponse := "rawbody" }, 1, false) :=
  ⟨rfl, by decide, rfl⟩

/-- Claim C7, amended: whenever the byte payload that would be sent upstream
is below 1000 bytes, `Transcribe` returns an error without issuing any HTTP
request — for the FPT provider and for the Google provider on
non-converting extensions that payload is the input file, while for `.m4a`
and `.aac` inputs the Google provider applies the threshold to the converted
WAV (rejecting it inside the conversion step). -/
theorem C7_amended_small_payload_rejected :
    (∀ (env : FptEnv) (path : String) (n : Nat),
      env.fileSize path = some n → n < 1000 →
      fptTranscribe env path =
        (.error ("audio file too small (" ++ toString n ++
          " bytes), may be empty or corrupted"), 0)) ∧
    (∀ (env : GoogleEnv) (path : String) (n : Nat),
      ¬(goToLower (pathExt path) = ".m4a" ∨ goToLower (pathExt path) = ".aac") →
      env.fileSize path = some n → n < 1000 →
      googleTranscribe env path =
        (.error ("audio file too small (" ++ toString n ++
          " bytes), may be empty or corrupted"), 0, false)) ∧
    (∀ (env : GoogleEnv) (path : String) (n : Nat),
      (goToLower (pathExt path) = ".m4a" ∨ goToLower (pathExt path) = ".aac") →
      env.ffmpeg = .output n → n < 1000 →
      googleTranscribe env path =
        (.error ("failed to convert M4A/AAC to WAV: " ++
          ("converted file too small (" ++ toString n ++
            " bytes), conversion may have failed")), 0, false)) := by
  refine ⟨?_, ?_, ?_⟩
  · intro env path n h1 h2
    simp [fptTranscribe, h1, h2]
  · intro env path n hext h1 h2
    simp [googleTranscribe, googleTranscribeBody, hext, h1, googleAfterRead, h2]
  · intro env path n hext hconv hn
    rcases hext with h | h <;>
      simp [googleTranscribe, googleTranscribeBody, h, convertM4AToWAV, hconv, hn]

theorem C7_witness :
    fptTranscribe fptEnvSmallW "a.wav" =
      (.error ("audio file too small (" ++ toString (500 : Nat) ++
        " bytes), may be empty or corrupted"), 0) ∧
    googleTranscribe gEnvSmallWavW "a.wav" =
      (.error ("audio file too small (" ++ toString (500 : Nat) ++
        " bytes), may be empty or corrupted"), 0, false) ∧
    googleTranscribe gEnvConvSmallW "a.m4a" =
      (.error ("failed to convert M4A/AAC to WAV: " ++
        ("converted file too small (" ++ toString (800 : Nat) ++
          " bytes), conversion may have failed")), 0, false) :=
  ⟨C7_amended_small_payload_rejected.1 fptEnvSmallW "a.wav" 500 rfl (by decide),
   C7_amended_small_payload_rejected.2.1 gEnvSmallWavW "a.wav" 500
     (by decide) rfl (by decide),
   C7_amended_small_payload_rejected.2.2 gEnvConvSmallW "a.m4a" 800
     (Or.inl (by decide)) rfl (by decide)⟩

/-- Claim C8: for a `.m4a`/`.aac` input whose conversion succeeds, the
temporary converted WAV exists during the call body, and after
`Transcribe` returns — whatever the HTTP outcome, result or error — the
deferred cleanup has removed it from disk. -/
theorem C8_transcode_cleanup (env : GoogleEnv) (path : String) (n : Nat)
    (hext : goToLower (pathExt path) = ".m4a" ∨ goToLower (pathExt path) = ".aac")
    (hconv : env.ffmpeg = .output n) (hn : 1000 ≤ n) :
    (googleTranscribeBody env path).tempOnDisk = true ∧
    (googleTranscribe env path).2.2 = false := by
  have hlt : ¬ n < 1000 := by omega
  rcases hg : googleAfterRead env n with ⟨res, calls⟩
  rcases hext with h | h <;>
    simp [googleTranscribe, googleTranscribeBody, h, convertM4AToWAV, hconv, hlt, hg]

theorem C8_witness :
    (googleTranscribeBody gEnvConvOkW "a.m4a").tempOnDisk = true ∧
    (googleTranscribe gEnvConvOkW "a.m4a").2.2 = false :=
  C8_transcode_cleanup gEnvConvOkW "a.m4a" 2000 (Or.inl (by decide)) rfl (by decide)

theorem assocGet_mdUnion_of_not_mem (newMd : List (String × JVal))
    (oldMd : List (String × JVal)) (k : String)
    (hk : k ∉ newMd.map Prod.fst) :
    assocGet (mdUnion oldMd newMd) k = assocGet oldMd k := by
  induction newMd generalizing oldMd with
  | nil => rfl
  | cons kv t ih =>
    obtain ⟨k0, v0⟩ := kv
    rw [List.map_cons] at hk
    have hk1 : k ≠ k0 := fun h => hk (by simp [h])
    have hk2 : k ∉ t.map Prod.fst := fun h => hk (List.mem_cons_of_mem _ h)
    have hstep : mdUnion oldMd ((k0, v0) :: t) = mdUnion (assocSet oldMd k0 v0) t := rfl
    rw [hstep, ih _ hk2, assocGet_assocSet_ne _ _ _ _ (fun h => hk1 h.symm)]

theorem assocGet_mdUnion (oldMd newMd : List (String × JVal)) (k : String)
    (hnd : (newMd.map Prod.fst).Nodup) :
    assocGet (mdUnion oldMd newMd) k =
      coalesceO (assocGet newMd k) (assocGet oldMd k) := by
  induction newMd generalizing oldMd with
  | nil => rfl
  | cons kv t ih =>
    obtain ⟨k0, v0⟩ := kv
    rw [List.map_cons, List.nodup_cons] at hnd
    have hstep : mdUnion oldMd ((k0, v0) :: t) = mdUnion (assocSet oldMd k0 v0) t := rfl
    by_cases hk : k0 = k
    · subst hk
      rw [hstep, assocGet_mdUnion_of_not_mem t _ k0 hnd.1, assocGet_assocSet_self]
      simp [assocGet, coalesceO]
    · rw [hstep, ih _ hnd.2, assocGet_assocSet_ne _ _ _ _ hk]
      simp [assocGet, hk, coalesceO]

/-- Claim C9, counterexample to the claim as stated: `status` is listed among
the protected fields, yet it is a non-nullable column bound to a plain Go
string — an update request whose status is absent (the zero value, the empty
string) overwrites a populated status `processed` with the empty string. -/
theorem C9_counterexample :
    rowPopulatedW.status = "processed" ∧ emptyStatusUpd.status = "" ∧
    (updateResult rowPopulatedW emptyStatusUpd).status = "" :=
  ⟨rfl, rfl, rfl⟩

/-- Claim C9, amended: `UpdateResult` never overwrites the nillable fields
(transcript, confidence, error message, duration, size) with an absent/nil
value — status, being a non-nullable string, is always written with the
supplied value; when metadata is supplied the stored metadata becomes the
key-level union of old and new (new keys added or overwritten, untouched old
keys preserved); and a transcript-carrying sync followed by an analysis-only
sync leaves a row holding both the transcript and the analysis metadata,
with status `success`. -/
theorem C9_amended_merge_semantics :
    (∀ (row : DbRow) (u : STTUpdate),
      (u.transcript = none → (updateResult row u).transcript = row.transcript) ∧
      (u.confidence = none → (updateResult row u).confidence = row.confidence) ∧
      (u.errorMessage = none → (updateResult row u).errorMessage = row.errorMessage) ∧
      (u.audioDurationMs = none → (updateResult row u).audioDurationMs = row.audioDurationMs) ∧
      (u.audioSizeBytes = none → (updateResult row u).audioSizeBytes = row.audioSizeBytes)) ∧
    (∀ (row : DbRow) (u : STTUpdate) (k : String),
      u.metadata ≠ [] → (u.metadata.map Prod.fst).Nodup →
      assocGet (updateResult row u).metadata k =
        coalesceO (assocGet u.metadata k) (assocGet row.metadata k)) ∧
    (∀ (row : DbRow) (rec : Recording) (id : String) (a : AnalysisResult),
      rec.transcript ≠ "" →
      (updateResult (updateResult row (syncUpdateReq rec)) (analysisUpdateReq id a)).transcript
        = some rec.transcript ∧
      assocGet (updateResult (updateResult row (syncUpdateReq rec)) (analysisUpdateReq id a)).metadata
        "ai_analysis" = some (aiAnalysisVal a) ∧
      (updateResult (updateResult row (syncUpdateReq rec)) (analysisUpdateReq id a)).status
        = "success") := by
  have hmd : ∀ (row : DbRow) (u : STTUpdate), u.metadata ≠ [] →
      (updateResult row u).metadata = mdUnion row.metadata u.metadata := by
    intro row u hne
    simp only [updateResult]
    cases hu : u.metadata with
    | nil => exact absurd hu hne
    | cons kv t => rfl
  refine ⟨?_, ?_, ?_⟩
  · intro row u
    refine ⟨fun h => ?_, fun h => ?_, fun h => ?_, fun h => ?_, fun h => ?_⟩ <;>
      simp [updateResult, h, coalesceO]
  · intro row u k hne hnd
    rw [hmd row u hne, assocGet_mdUnion _ _ _ hnd]
  · intro row rec id a ht
    refine ⟨?_, ?_, rfl⟩
    · simp [updateResult, analysisUpdateReq, syncUpdateReq, ht, coalesceO]
    · rw [hmd _ _ (by simp [analysisUpdateReq]),
        assocGet_mdUnion _ _ _ (by simp [analysisUpdateReq])]
      simp [analysisUpdateReq, assocGet, coalesceO]

theorem C9_witness :
    (updateResult rowPopulatedW emptyStatusUpd).transcript = rowPopulatedW.transcript ∧
    assocGet (updateResult rowPopulatedW (analysisUpdateReq "r2" analysisW)).metadata
        "recording_id" =
      coalesceO (assocGet (analysisUpdateReq "r2" analysisW).metadata "recording_id")
        (assocGet rowPopulatedW.metadata "recording_id") ∧
    (updateResult (updateResult rowBaseW (syncUpdateReq recProcessedW))
        (analysisUpdateReq "r2" analysisW)).transcript = some recProcessedW.transcript :=
  ⟨(C9_amended_merge_semantics.1 rowPopulatedW emptyStatusUpd).1 rfl,
   C9_amended_merge_semantics.2.1 rowPopulatedW (analysisUpdateReq "r2" analysisW)
     "recording_id" (by simp [analysisUpdateReq]) (by simp [analysisUpdateReq]),
   (C9_amended_merge_semantics.2.2 rowBaseW recProcessedW "r2" analysisW (by decide)).1⟩

end Noteme
